import Mathlib

/-!
Shallow embedding of the invsto repository's validation and signal pipeline.

Part 1: the strict CSV validator (`src/app/csv_parser.py`, class `CSVParser`)
and the lenient import-path validator (`src/app/import_data.py`, class
`StockDataImporter`).

Modelling conventions:
* A raw CSV row's text fields are represented by the outcome of the Python
  parse call applied to them: `datetime.strptime` becomes `Option Nat`
  (an abstract timestamp), `float(...)` becomes `Option ℚ`, `int(...)`
  becomes `Option ℤ`.  The string-to-value parsers themselves are external
  library calls and are not under verification; all decision logic that the
  Python code performs on the parsed values is embedded faithfully.
* `logger.warning` calls are modelled as an explicit list of emitted
  warnings returned alongside the result.
* Rejection messages interpolate field values in Python; here each message
  is represented by its class (one constructor per distinct message).
-/

namespace Invsto

/-- A raw CSV row, each field carried as the outcome of the Python parse
applied to its text (`strptime` for datetime, `float` for prices, `int` for
volume); the instrument field is kept as the raw string, as in the source. -/
structure RawRow where
  datetime : Option Nat
  close : Option ℚ
  high : Option ℚ
  low : Option ℚ
  open_price : Option ℚ
  volume : Option ℤ
  instrument : String
deriving DecidableEq

/-- Warnings emitted by `logger.warning` inside `CSVParser.validate_numeric`
and `CSVParser.validate_integer`, one constructor per field name. -/
inductive Warn where
  | negClose
  | negHigh
  | negLow
  | negOpen
  | negVolume
deriving DecidableEq

/-- Rejection classes of `CSVParser.validate_row`, one constructor per
distinct error message produced by the source. -/
inductive Reason where
  | invalidDatetime
  | invalidClose
  | invalidHigh
  | invalidLow
  | invalidOpen
  | invalidVolume
  | emptyInstrument
  | highLtLow
  | highLtOpenClose
  | lowGtOpenClose
deriving DecidableEq

/-- The tuple `(dt, close, high, low, open_price, volume, instrument)` built
by `CSVParser.validate_row` on success. -/
structure ParsedRow where
  dt : Nat
  close : ℚ
  high : ℚ
  low : ℚ
  open_price : ℚ
  volume : ℤ
  instrument : String
deriving DecidableEq

/-- Python's `str.strip()`: removal of leading and trailing whitespace,
written over the character list so that it evaluates by kernel reduction. -/
def pyStrip (s : String) : String :=
  ⟨((s.data.dropWhile Char.isWhitespace).reverse.dropWhile
    Char.isWhitespace).reverse⟩

/-- Decidable equality for `Except` results, so that concrete validator
outputs can be checked by evaluation. -/
instance {ε α : Type} [DecidableEq ε] [DecidableEq α] :
    DecidableEq (Except ε α) := fun a b =>
  match a, b with
  | .error e, .error f =>
    if h : e = f then .isTrue (congrArg Except.error h)
    else .isFalse fun hh => h (Except.error.inj hh)
  | .error _, .ok _ => .isFalse fun hh => Except.noConfusion hh
  | .ok _, .error _ => .isFalse fun hh => Except.noConfusion hh
  | .ok x, .ok y =>
    if h : x = y then .isTrue (congrArg Except.ok h)
    else .isFalse fun hh => h (Except.ok.inj hh)

/-- `CSVParser.validate_numeric`: on a successful `float` parse the value is
returned even when negative; a negative value only emits a warning. -/
def validate_numeric (v : Option ℚ) (w : Warn) : List Warn × Option ℚ :=
  match v with
  | none => ([], none)
  | some x => (if x < 0 then [w] else [], some x)

/-- `CSVParser.validate_integer`: on a successful `int` parse the value is
returned even when negative; a negative value only emits a warning. -/
def validate_integer (v : Option ℤ) (w : Warn) : List Warn × Option ℤ :=
  match v with
  | none => ([], none)
  | some x => (if x < 0 then [w] else [], some x)

/-- `CSVParser.validate_row`: field-level checks in source order (datetime,
close, high, low, open, volume, instrument), then the three OHLC
relationship checks, short-circuiting at the first failure.  Returns the
warnings emitted up to the point of return together with either the
rejection class or the parsed row. -/
def validate_row (row : RawRow) : List Warn × Except Reason ParsedRow :=
  match row.datetime with
  | none => ([], .error .invalidDatetime)
  | some dt =>
    let wc := validate_numeric row.close .negClose
    match wc.2 with
    | none => (wc.1, .error .invalidClose)
    | some close =>
      let wh := validate_numeric row.high .negHigh
      match wh.2 with
      | none => (wc.1 ++ wh.1, .error .invalidHigh)
      | some high =>
        let wl := validate_numeric row.low .negLow
        match wl.2 with
        | none => (wc.1 ++ wh.1 ++ wl.1, .error .invalidLow)
        | some low =>
          let wo := validate_numeric row.open_price .negOpen
          match wo.2 with
          | none => (wc.1 ++ wh.1 ++ wl.1 ++ wo.1, .error .invalidOpen)
          | some open_price =>
            let wv := validate_integer row.volume .negVolume
            let warns := wc.1 ++ wh.1 ++ wl.1 ++ wo.1 ++ wv.1
            match wv.2 with
            | none => (warns, .error .invalidVolume)
            | some volume =>
              (warns,
                if pyStrip row.instrument = "" then .error .emptyInstrument
                else if high < low then .error .highLtLow
                else if high < open_price ∨ high < close then
                  .error .highLtOpenClose
                else if low > open_price ∨ low > close then
                  .error .lowGtOpenClose
                else
                  .ok ⟨dt, close, high, low, open_price, volume,
                    pyStrip row.instrument⟩)

/-- The row loop of `CSVParser.parse_csv`: rows are validated in order with
row numbers counted from `n`; accepted rows go to `parsed_data`, rejected
rows to `invalid_rows` paired with their row number. -/
def parse_csv_rows : Nat → List RawRow → List ParsedRow × List (Nat × Reason)
  | _, [] => ([], [])
  | n, r :: rs =>
    let rest := parse_csv_rows (n + 1) rs
    match (validate_row r).2 with
    | .ok p => (p :: rest.1, rest.2)
    | .error e => (rest.1, (n, e) :: rest.2)

/-- `CSVParser.parse_csv` row processing: the enumeration starts at 2
because the header is row 1. -/
def parse_csv (rows : List RawRow) : List ParsedRow × List (Nat × Reason) :=
  parse_csv_rows 2 rows

/-- Rejection classes of `StockDataImporter.validate_row_data`: a failed
parse of any field raises `ValueError`, caught as one "Data validation
error" class; an empty instrument is its own class. -/
inductive ImportReason where
  | dataValidationError
  | emptyInstrument
deriving DecidableEq

/-- `StockDataImporter.validate_row_data` (lenient import path): datetime,
the four prices and the volume only need to parse, the instrument only
needs to be non-empty after strip.  No OHLC relationship is checked and no
warning is ever emitted (the warning list is always empty). -/
def validate_row_data (row : RawRow) : List Warn × Except ImportReason Unit :=
  match row.datetime with
  | none => ([], .error .dataValidationError)
  | some _ =>
    match row.close with
    | none => ([], .error .dataValidationError)
    | some _ =>
      match row.high with
      | none => ([], .error .dataValidationError)
      | some _ =>
        match row.low with
        | none => ([], .error .dataValidationError)
        | some _ =>
          match row.open_price with
          | none => ([], .error .dataValidationError)
          | some _ =>
            match row.volume with
            | none => ([], .error .dataValidationError)
            | some _ =>
              if pyStrip row.instrument = "" then
                ([], .error .emptyInstrument)
              else
                ([], .ok ())

/-!
Part 2: the SignalEngine (`src/app/api.py`, `get_strategy_performance`).

Modelling conventions:
* The close series is a `List ℚ` in ascending time order, matching the
  `ORDER BY datetime ASC` query; rationals stand in for Python floats.
* pandas' shifted elementwise operations `pct_change`, `diff` and `shift`
  are embedded via `lagMap`, which maps every element together with its
  predecessor; `fillna(0)` shows up as the leading `0` for index 0.
* The buy/sell signal dates returned by the source are abstracted to the
  0-based indices of the matching rows, since one date is derived from each
  row's timestamp.
-/

/-- Combines every element of a list with its predecessor, the running
predecessor seeded by the first argument.  This is the common shape of the
row-shifted pandas column operations used by the engine. -/
def lagMap {α β : Type} (f : α → α → β) : α → List α → List β
  | _, [] => []
  | prev, y :: ys => f prev y :: lagMap f y ys

/-- The column `df.close.pct_change().fillna(0)`: entry 0 is 0 (the NaN
filled by `fillna`), entry `i>0` is `close[i] / close[i-1] - 1`. -/
def returnsList (xs : List ℚ) : List ℚ :=
  match xs with
  | [] => []
  | x :: t => 0 :: lagMap (fun p y => y / p - 1) x t

/-- The column `df.signal.diff().fillna(0)`: entry 0 is 0, entry `i>0` is
`signal[i] - signal[i-1]`. -/
def diffList (xs : List ℤ) : List ℤ :=
  match xs with
  | [] => []
  | x :: t => 0 :: lagMap (fun p y => y - p) x t

/-- The column `df.signal.shift(1).fillna(0)`: entry 0 is 0, entry `i>0` is
`signal[i-1]`. -/
def shiftList (xs : List ℤ) : List ℤ :=
  match xs with
  | [] => []
  | x :: t => 0 :: lagMap (fun p _ => p) x t

/-- The observations that `rolling(window := w, min_periods := 1)` sees at
row `i`: the up-to-`w` most recent entries of the history `xs.take (i+1)`.
With truncated subtraction `i + 1 - w` equals `max 0 (i + 1 - w)`. -/
def maWindow (w : ℕ) (xs : List ℚ) (i : ℕ) : List ℚ :=
  (xs.take (i + 1)).drop (i + 1 - w)

/-- The rolling mean `df.close.rolling(window := w, min_periods := 1).mean()`
at row `i`. -/
def rolling_mean (w : ℕ) (xs : List ℚ) (i : ℕ) : ℚ :=
  (maWindow w xs i).sum / ((maWindow w xs i).length : ℚ)

/-- The signal column: 0 by default, 1 where `short_ma > long_ma`, -1 where
`short_ma < long_ma` (the two conditions are mutually exclusive, so the
sequential `df.loc` assignments of the source commute). -/
def signal (s l : ℕ) (xs : List ℚ) (i : ℕ) : ℤ :=
  if rolling_mean s xs i > rolling_mean l xs i then 1
  else if rolling_mean s xs i < rolling_mean l xs i then -1
  else 0

/-- The whole signal column as a list over the rows of the series. -/
def signals (s l : ℕ) (xs : List ℚ) : List ℤ :=
  (List.range xs.length).map (signal s l xs)

/-- The column `df.position = df.signal.diff().fillna(0)`. -/
def position (s l : ℕ) (xs : List ℚ) : List ℤ :=
  diffList (signals s l xs)

/-- The rows of a signal column whose `diff().fillna(0)` equals 2, as
0-based indices: the selection `df[df.signal.diff().fillna(0) == 2]`. -/
def buy_events (sigs : List ℤ) : List ℕ :=
  (List.range sigs.length).filter (fun i => (diffList sigs).getD i 0 == 2)

/-- The rows of a signal column whose `diff().fillna(0)` equals -2, as
0-based indices: the selection `df[df.signal.diff().fillna(0) == -2]`. -/
def sell_events (sigs : List ℤ) : List ℕ :=
  (List.range sigs.length).filter (fun i => (diffList sigs).getD i 0 == -2)

/-- The rows selected by `df[df.position == 2]`, as 0-based indices. -/
def buy_signals (s l : ℕ) (xs : List ℚ) : List ℕ :=
  buy_events (signals s l xs)

/-- The rows selected by `df[df.position == -2]`, as 0-based indices. -/
def sell_signals (s l : ℕ) (xs : List ℚ) : List ℕ :=
  sell_events (signals s l xs)

/-- The count `num_buys = len(buy_signals)`. -/
def num_buys (s l : ℕ) (xs : List ℚ) : ℕ := (buy_signals s l xs).length

/-- The count `num_sells = len(sell_signals)`. -/
def num_sells (s l : ℕ) (xs : List ℚ) : ℕ := (sell_signals s l xs).length

/-- The count `total_trades = min(num_buys, num_sells)`. -/
def total_trades (s l : ℕ) (xs : List ℚ) : ℕ :=
  min (num_buys s l xs) (num_sells s l xs)

/-- The column `df.strategy_returns = df.returns * df.signal.shift(1).fillna(0)`. -/
def strategy_returns (s l : ℕ) (xs : List ℚ) : List ℚ :=
  List.zipWith (fun r sg => r * ((sg : ℤ) : ℚ))
    (returnsList xs) (shiftList (signals s l xs))

/-- The scalar `cumulative_return = (df.strategy_returns + 1).prod() - 1`. -/
def cumulative_return (s l : ℕ) (xs : List ℚ) : ℚ :=
  ((strategy_returns s l xs).map (fun t => t + 1)).prod - 1

/-- The response of `get_strategy_performance`: either the "No data found"
sentinel message or the summary payload. -/
inductive PerfResult where
  | noData
  | summary (buys sells : List ℕ) (nb ns nt : ℕ) (cr : ℚ) (sw lw : ℕ)
deriving DecidableEq

/-- `get_strategy_performance`: the empty series returns the sentinel
message, otherwise the summary of the crossover computation is returned. -/
def get_strategy_performance (s l : ℕ) (xs : List ℚ) : PerfResult :=
  if xs.isEmpty then .noData
  else .summary (buy_signals s l xs) (sell_signals s l xs)
    (num_buys s l xs) (num_sells s l xs) (total_trades s l xs)
    (cumulative_return s l xs) s l

/-- Per-step simple return in the spec's words: `r[i] = close[i]/close[i-1] - 1`
for `i > 0` and `r[0] = 0`. -/
def r_spec (xs : List ℚ) (i : ℕ) : ℚ :=
  if i = 0 then 0 else xs.getD i 0 / xs.getD (i - 1) 0 - 1

/-- Strategy return per step in the spec's words: `strat[i] = r[i] * signal[i-1]`
for `i > 0` and `strat[0] = 0`. -/
def strat_spec (s l : ℕ) (xs : List ℚ) (i : ℕ) : ℚ :=
  if i = 0 then 0 else r_spec xs i * ((signal s l xs (i - 1) : ℤ) : ℚ)

/-- The trailing window of size `min w (i+1)` ending at row `i`, in the
spec's words: the last `min w (i+1)` observations of the history up to `i`. -/
def specWindow (w : ℕ) (xs : List ℚ) (i : ℕ) : List ℚ :=
  ((xs.take (i + 1)).reverse.take (min w (i + 1))).reverse

/-- The arithmetic mean of the trailing window of size `min w (i+1)` ending
at row `i`, in the spec's words. -/
def spec_trailing_mean (w : ℕ) (xs : List ℚ) (i : ℕ) : ℚ :=
  (specWindow w xs i).sum / ((min w (i + 1) : ℕ) : ℚ)

/-!
Part 3: helper lemmas about the validator.
-/

/-- On a row whose seven fields all parsed, the strict validator's verdict
is the instrument check followed by the three OHLC checks in source order. -/
lemma validate_row_mk_snd (dt : Nat) (c h lo op : ℚ) (v : ℤ) (inst : String) :
    (validate_row ⟨some dt, some c, some h, some lo, some op, some v, inst⟩).2 =
      (if pyStrip inst = "" then .error .emptyInstrument
       else if h < lo then .error .highLtLow
       else if h < op ∨ h < c then .error .highLtOpenClose
       else if lo > op ∨ lo > c then .error .lowGtOpenClose
       else .ok ⟨dt, c, h, lo, op, v, pyStrip inst⟩) := rfl

/-- On a row whose seven fields all parsed, the warnings emitted are one
negativity warning per negative parsed value, in field order. -/
lemma validate_row_mk_fst (dt : Nat) (c h lo op : ℚ) (v : ℤ) (inst : String) :
    (validate_row ⟨some dt, some c, some h, some lo, some op, some v, inst⟩).1 =
      (if c < 0 then [Warn.negClose] else []) ++
      (if h < 0 then [Warn.negHigh] else []) ++
      (if lo < 0 then [Warn.negLow] else []) ++
      (if op < 0 then [Warn.negOpen] else []) ++
      (if v < 0 then [Warn.negVolume] else []) := rfl

/-- The accepted output of the row loop is the input rows' successful
validations, in input order, independently of the starting row number. -/
lemma parse_csv_rows_fst (n : Nat) (rows : List RawRow) :
    (parse_csv_rows n rows).1 =
      rows.filterMap (fun r => ((validate_row r).2).toOption) := by
  induction rows generalizing n with
  | nil => rfl
  | cons r rs ih =>
    simp only [parse_csv_rows, List.filterMap_cons]
    cases hr : (validate_row r).2 with
    | ok p => simp [hr, Except.toOption, ih]
    | error e => simp [hr, Except.toOption, ih]

/-- The rejected output of the row loop pairs each failing row with its row
number counted from the starting number `n`, in input order. -/
lemma parse_csv_rows_snd (n : Nat) (rows : List RawRow) :
    (parse_csv_rows n rows).2 =
      ((List.range' n rows.length).zip rows).filterMap
        (fun p => match (validate_row p.2).2 with
          | .ok _ => none
          | .error e => some (p.1, e)) := by
  induction rows generalizing n with
  | nil => rfl
  | cons r rs ih =>
    simp only [parse_csv_rows, List.length_cons, List.range'_succ,
      List.zip_cons_cons, List.filterMap_cons]
    cases hr : (validate_row r).2 with
    | ok p => simp [hr, ih]
    | error e => simp [hr, ih]

/-- Every input row lands in exactly one of the two outputs of the row
loop, so the output lengths sum to the input length. -/
lemma parse_csv_rows_length (n : Nat) (rows : List RawRow) :
    (parse_csv_rows n rows).1.length + (parse_csv_rows n rows).2.length =
      rows.length := by
  induction rows generalizing n with
  | nil => rfl
  | cons r rs ih =>
    have := ih (n + 1)
    simp only [parse_csv_rows, List.length_cons]
    cases hr : (validate_row r).2 with
    | ok p => simp only [hr, List.length_cons]; omega
    | error e => simp only [hr, List.length_cons]; omega

/-!
Part 4: the claims about the validator.
-/

/-- C7: for every row whose fields all parse (datetime, the four prices,
the volume, and a non-empty trimmed instrument) the three OHLC checks are
evaluated in the fixed order high-lt-low, high-lt-open-or-close,
low-gt-open-or-close, short-circuiting at the first failure; in particular
whenever `high < low` the rejection class is exactly `highLtLow`,
regardless of the other OHLC invariants. -/
theorem C7_ohlc_short_circuit (row : RawRow) (dt : Nat) (c h lo op : ℚ)
    (v : ℤ) (hdt : row.datetime = some dt) (hc : row.close = some c)
    (hh : row.high = some h) (hlo : row.low = some lo)
    (hop : row.open_price = some op) (hv : row.volume = some v)
    (hinst : pyStrip row.instrument ≠ "") :
    (h < lo → (validate_row row).2 = .error .highLtLow) ∧
    (¬ h < lo → (h < op ∨ h < c) →
      (validate_row row).2 = .error .highLtOpenClose) ∧
    (¬ h < lo → ¬ (h < op ∨ h < c) → (lo > op ∨ lo > c) →
      (validate_row row).2 = .error .lowGtOpenClose) := by
  obtain ⟨d0, c0, h0, l0, o0, v0, i0⟩ := row
  cases hdt; cases hc; cases hh; cases hlo; cases hop; cases hv
  refine ⟨fun h1 => ?_, fun h1 h2 => ?_, fun h1 h2 h3 => ?_⟩ <;>
    rw [validate_row_mk_snd]
  · rw [if_neg hinst, if_pos h1]
  · rw [if_neg hinst, if_neg h1, if_pos h2]
  · rw [if_neg hinst, if_neg h1, if_neg h2, if_pos h3]

/-- Witness for C7: a concrete row violating all three OHLC invariants
(high 100 below low 150, high below open 200, low above close 10) is
rejected with exactly the high-lt-low class. -/
theorem C7_witness :
    (validate_row ⟨some 0, some 10, some 100, some 150, some 200, some 5,
      "HINDALCO"⟩).2 = .error .highLtLow :=
  (C7_ohlc_short_circuit _ 0 10 100 150 200 5 rfl rfl rfl rfl rfl rfl
    (by decide)).1 (by decide)

/-- C10: the lenient import-path validator accepts every row whose datetime
and numeric fields parse and whose instrument is non-empty after trimming,
with no warning emitted; it imposes no OHLC-relationship check and no
negative-volume check (the hypotheses place no constraint on the parsed
values, so rows with `high < low` or a negative volume are accepted). -/
theorem C10_lenient_import_accepts (row : RawRow) (dt : Nat)
    (c h lo op : ℚ) (v : ℤ) (hdt : row.datetime = some dt)
    (hc : row.close = some c) (hh : row.high = some h)
    (hlo : row.low = some lo) (hop : row.open_price = some op)
    (hv : row.volume = some v) (hinst : pyStrip row.instrument ≠ "") :
    validate_row_data row = ([], .ok ()) := by
  obtain ⟨d0, c0, h0, l0, o0, v0, i0⟩ := row
  cases hdt; cases hc; cases hh; cases hlo; cases hop; cases hv
  have hred : validate_row_data ⟨some dt, some c, some h, some lo, some op,
      some v, i0⟩ =
      (if pyStrip i0 = "" then ([], Except.error ImportReason.emptyInstrument)
       else ([], Except.ok ())) := rfl
  rw [hred, if_neg hinst]

/-- Witness for C10: a concrete row with inverted prices (high 100 below
low 150) and a negative volume is accepted by the import path with no
warning. -/
theorem C10_witness :
    validate_row_data ⟨some 0, some 153, some 100, some 150, some 151,
      some (-5), "HINDALCO"⟩ = ([], .ok ()) :=
  C10_lenient_import_accepts _ 0 153 100 150 151 (-5)
    rfl rfl rfl rfl rfl rfl (by decide)

/-- Counterexample to C1 as stated: a concrete row whose volume parses to
the negative integer -5 and whose remaining fields are valid is NOT
rejected by the strict validator at any stage — `validate_row` emits the
negative-volume warning and accepts the row, so no volume-negative
rejection occurs downstream. -/
theorem C1_counterexample :
    validate_row ⟨some 0, some 153, some 155, some 149,
        some 150, some (-5), "HINDALCO"⟩ =
      ([Warn.negVolume],
        .ok ⟨0, 153, 155, 149, 150, -5, "HINDALCO"⟩) := by
  decide

/-- C1 (amended): for every raw row whose volume parses as a negative
integer and whose remaining fields are otherwise valid, the strict
validator does not reject at parse time — parsing succeeds and only the
negative-volume warning is logged — and it does not reject the row
downstream either: `validate_row` accepts it, there being no
volume-negative rejection stage; the `invalidVolume` parse-failure class
arises exactly when the volume fails to parse. -/
theorem C1_negative_volume_accepted (row : RawRow) (dt : Nat)
    (c h lo op : ℚ) (v : ℤ) (hdt : row.datetime = some dt)
    (hc : row.close = some c) (hh : row.high = some h)
    (hlo : row.low = some lo) (hop : row.open_price = some op)
    (hv : row.volume = some v) (hneg : v < 0)
    (hinst : pyStrip row.instrument ≠ "") (h1 : ¬ h < lo)
    (h2 : ¬ (h < op ∨ h < c)) (h3 : ¬ (lo > op ∨ lo > c)) :
    Warn.negVolume ∈ (validate_row row).1 ∧
    (validate_row row).2 =
      .ok ⟨dt, c, h, lo, op, v, pyStrip row.instrument⟩ ∧
    (∀ r : RawRow,
      (validate_row r).2 = .error .invalidVolume → r.volume = none) := by
  obtain ⟨d0, c0, h0, l0, o0, v0, i0⟩ := row
  cases hdt; cases hc; cases hh; cases hlo; cases hop; cases hv
  refine ⟨?_, ?_, ?_⟩
  · rw [validate_row_mk_fst]
    simp [hneg]
  · rw [validate_row_mk_snd, if_neg hinst, if_neg h1, if_neg h2, if_neg h3]
  · intro r hr
    obtain ⟨d, rc, rh, rl, ro, rv, ri⟩ := r
    cases rv with
    | none => rfl
    | some x =>
      exfalso
      cases d <;> cases rc <;> cases rh <;> cases rl <;> cases ro <;>
        first
          | exact Reason.noConfusion (Except.error.inj hr)
          | (rw [validate_row_mk_snd] at hr
             repeat' split at hr
             all_goals simp at hr)

/-- Witness for C1 (amended): the concrete negative-volume row is accepted
with the negative-volume warning. -/
theorem C1_witness :
    Warn.negVolume ∈ (validate_row ⟨some 0, some 153, some 155,
      some 149, some 150, some (-5), "HINDALCO"⟩).1 ∧
    (validate_row ⟨some 0, some 153, some 155, some 149,
        some 150, some (-5), "HINDALCO"⟩).2 =
      .ok ⟨0, 153, 155, 149, 150, -5,
        pyStrip "HINDALCO"⟩ ∧
    (∀ r : RawRow,
      (validate_row r).2 = .error .invalidVolume → r.volume = none) :=
  C1_negative_volume_accepted _ 0 153 155 149 150 (-5)
    rfl rfl rfl rfl rfl rfl (by decide) (by decide) (by decide) (by decide)
    (by decide)

/-- C6: batch validation assigns each of the N input rows to exactly one of
the two outputs, so the lengths sum to N; the accepted sequence is the
sequence of successful validations in input order; and each rejection is
paired with its original 1-based row ordinal, counted from 2 because the
header is row 1. -/
theorem C6_batch_partition (rows : List RawRow) :
    (parse_csv rows).1.length + (parse_csv rows).2.length = rows.length ∧
    (parse_csv rows).1 =
      rows.filterMap (fun r => ((validate_row r).2).toOption) ∧
    (parse_csv rows).2 =
      ((List.range' 2 rows.length).zip rows).filterMap
        (fun p => match (validate_row p.2).2 with
          | .ok _ => none
          | .error e => some (p.1, e)) :=
  ⟨parse_csv_rows_length 2 rows, parse_csv_rows_fst 2 rows,
    parse_csv_rows_snd 2 rows⟩

/-!
Part 5: helper lemmas about the SignalEngine columns.
-/

/-- `lagMap` preserves length. -/
lemma lagMap_length {α β : Type} (f : α → α → β) (p : α) (ys : List α) :
    (lagMap f p ys).length = ys.length := by
  induction ys generalizing p with
  | nil => rfl
  | cons y t ih => simp [lagMap, ih]

/-- Entry `i` of `lagMap f p ys` combines the predecessor of `ys[i]` (the
seed `p` at index 0) with `ys[i]`. -/
lemma lagMap_getElem {α β : Type} (f : α → α → β) (dA : α) (ys : List α)
    (p : α) (i : ℕ) (hi : i < (lagMap f p ys).length) :
    (lagMap f p ys)[i] =
      f (if i = 0 then p else ys.getD (i - 1) dA) (ys.getD i dA) := by
  induction ys generalizing p i with
  | nil => simp [lagMap] at hi
  | cons y t ih =>
    cases i with
    | zero => simp [lagMap]
    | succ j =>
      have hj : j < (lagMap f y t).length := by
        simpa [lagMap] using hi
      simp only [lagMap, List.getElem_cons_succ]
      rw [ih y j hj]
      cases j with
      | zero => simp
      | succ k => simp

/-- `returnsList` preserves length. -/
lemma returnsList_length (xs : List ℚ) :
    (returnsList xs).length = xs.length := by
  cases xs with
  | nil => rfl
  | cons x t => simp [returnsList, lagMap_length]

/-- Entry `i` of the `pct_change().fillna(0)` column is the spec's per-step
simple return `r_spec`. -/
lemma returnsList_getElem (xs : List ℚ) (i : ℕ)
    (hi : i < (returnsList xs).length) :
    (returnsList xs)[i] = r_spec xs i := by
  cases xs with
  | nil => simp [returnsList] at hi
  | cons x t =>
    cases i with
    | zero => simp [returnsList, r_spec]
    | succ j =>
      have hj : j < (lagMap (fun p y => y / p - 1) x t).length := by
        simpa [returnsList] using hi
      simp only [returnsList, List.getElem_cons_succ]
      rw [lagMap_getElem _ 0 t x j hj]
      cases j with
      | zero => simp [r_spec]
      | succ k => simp [r_spec]

/-- `shiftList` preserves length. -/
lemma shiftList_length (xs : List ℤ) :
    (shiftList xs).length = xs.length := by
  cases xs with
  | nil => rfl
  | cons x t => simp [shiftList, lagMap_length]

/-- Entry `i` of the `shift(1).fillna(0)` column is the previous entry of
the input, 0 at index 0. -/
lemma shiftList_getElem (xs : List ℤ) (i : ℕ)
    (hi : i < (shiftList xs).length) :
    (shiftList xs)[i] = if i = 0 then 0 else xs.getD (i - 1) 0 := by
  cases xs with
  | nil => simp [shiftList] at hi
  | cons x t =>
    cases i with
    | zero => simp [shiftList]
    | succ j =>
      have hj : j < (lagMap (fun p _ => p) x t).length := by
        simpa [shiftList] using hi
      simp only [shiftList, List.getElem_cons_succ]
      rw [lagMap_getElem _ 0 t x j hj]
      cases j with
      | zero => simp
      | succ k => simp

/-- `diffList` preserves length. -/
lemma diffList_length (xs : List ℤ) :
    (diffList xs).length = xs.length := by
  cases xs with
  | nil => rfl
  | cons x t => simp [diffList, lagMap_length]

/-- Entry `i` of the `diff().fillna(0)` column is the difference with the
previous entry, 0 at index 0. -/
lemma diffList_getElem (xs : List ℤ) (i : ℕ)
    (hi : i < (diffList xs).length) :
    (diffList xs)[i] =
      if i = 0 then 0 else xs.getD i 0 - xs.getD (i - 1) 0 := by
  cases xs with
  | nil => simp [diffList] at hi
  | cons x t =>
    cases i with
    | zero => simp [diffList]
    | succ j =>
      have hj : j < (lagMap (fun p y => y - p) x t).length := by
        simpa [diffList] using hi
      simp only [diffList, List.getElem_cons_succ]
      rw [lagMap_getElem _ 0 t x j hj]
      cases j with
      | zero => simp
      | succ k => simp

/-- The signal column has one entry per row. -/
lemma signals_length (s l : ℕ) (xs : List ℚ) :
    (signals s l xs).length = xs.length := by
  simp [signals]

/-- Entry `i` of the signal column is `signal s l xs i`. -/
lemma signals_getD (s l : ℕ) (xs : List ℚ) (i : ℕ) (hi : i < xs.length) :
    (signals s l xs).getD i 0 = signal s l xs i := by
  have hlen : i < (signals s l xs).length := by rw [signals_length]; exact hi
  rw [List.getD_eq_getElem _ _ hlen]
  simp [signals]

/-- The strategy-returns column has one entry per row. -/
lemma strategy_returns_length (s l : ℕ) (xs : List ℚ) :
    (strategy_returns s l xs).length = xs.length := by
  simp [strategy_returns, returnsList_length, shiftList_length,
    signals_length]

/-- Entry `i` of the strategy-returns column is the spec's per-step
strategy return `strat_spec`. -/
lemma strategy_returns_getElem (s l : ℕ) (xs : List ℚ) (i : ℕ)
    (hi : i < (strategy_returns s l xs).length) :
    (strategy_returns s l xs)[i] = strat_spec s l xs i := by
  have hix : i < xs.length := by rw [← strategy_returns_length s l xs]; exact hi
  simp only [strategy_returns] at hi ⊢
  rw [List.getElem_zipWith]
  rw [returnsList_getElem xs i (by rw [returnsList_length]; exact hix)]
  rw [shiftList_getElem _ i
    (by rw [shiftList_length, signals_length]; exact hix)]
  cases i with
  | zero => simp [strat_spec, r_spec]
  | succ j =>
    have hjx : j < xs.length := Nat.lt_of_succ_lt hix
    simp only [strat_spec, r_spec, Nat.succ_ne_zero, if_false,
      Nat.add_sub_cancel]
    rw [signals_getD s l xs j hjx]

/-- The strategy-returns column, as a whole, is the pointwise table of
`strat_spec` over the row indices. -/
lemma strategy_returns_eq_map (s l : ℕ) (xs : List ℚ) :
    strategy_returns s l xs =
      (List.range xs.length).map (strat_spec s l xs) := by
  apply List.ext_getElem
  · simp [strategy_returns_length]
  · intro i h1 h2
    rw [strategy_returns_getElem s l xs i h1]
    simp

/-- The product of a tabulated list equals the product over `Finset.range`. -/
lemma range_map_prod (g : ℕ → ℚ) (n : ℕ) :
    ((List.range n).map g).prod = ∏ i in Finset.range n, g i := by
  induction n with
  | zero => simp
  | succ m ih =>
    rw [List.range_succ, List.map_append, List.prod_append,
      Finset.prod_range_succ, ih]
    simp

/-- The rolling window over a constant series is a constant window of size
`min w (i+1)`. -/
lemma maWindow_replicate (w n : ℕ) (c : ℚ) (i : ℕ) (hi : i < n) :
    maWindow w (List.replicate n c) i = List.replicate (min w (i + 1)) c := by
  unfold maWindow
  rw [List.take_replicate, List.drop_replicate]
  congr 1
  omega

/-- The rolling mean of a constant series is that constant at every row. -/
lemma rolling_mean_replicate (w n : ℕ) (c : ℚ) (i : ℕ) (hw : 0 < w)
    (hi : i < n) : rolling_mean w (List.replicate n c) i = c := by
  unfold rolling_mean
  rw [maWindow_replicate w n c i hi]
  have hk : (0 : ℚ) < ((min w (i + 1) : ℕ) : ℚ) := by
    have : 0 < min w (i + 1) := by omega
    exact_mod_cast this
  rw [List.sum_replicate, List.length_replicate, nsmul_eq_mul,
    mul_div_cancel_left₀ c (ne_of_gt hk)]

/-- The crossover signal of a constant series is 0 at every row. -/
lemma signal_replicate (s l n : ℕ) (c : ℚ) (i : ℕ) (hs : 0 < s)
    (hl : 0 < l) (hi : i < n) : signal s l (List.replicate n c) i = 0 := by
  unfold signal
  rw [rolling_mean_replicate s n c i hs hi,
    rolling_mean_replicate l n c i hl hi]
  simp

/-- `lagMap` that keeps the predecessor maps an all-zero column to itself. -/
lemma lagMap_keep_replicate (m : ℕ) :
    lagMap (fun (p : ℤ) _ => p) 0 (List.replicate m 0) =
      List.replicate m 0 := by
  induction m with
  | zero => rfl
  | succ k ih => simp [List.replicate_succ, lagMap, ih]

/-- Shifting an all-zero signal column yields the all-zero column. -/
lemma shiftList_replicate_zero (n : ℕ) :
    shiftList (List.replicate n (0 : ℤ)) = List.replicate n 0 := by
  cases n with
  | zero => rfl
  | succ m => simp [List.replicate_succ, shiftList, lagMap_keep_replicate]

/-- Multiplying any returns column by an all-zero shifted-signal column
yields an all-zero strategy-returns column. -/
lemma zipWith_mul_castZero (ys : List ℚ) (m : ℕ) :
    List.zipWith (fun r (sg : ℤ) => r * (sg : ℚ)) ys
        (List.replicate m 0) =
      List.replicate (min ys.length m) 0 := by
  induction ys generalizing m with
  | nil => simp
  | cons y t ih =>
    cases m with
    | zero => simp
    | succ k =>
      simp only [List.replicate_succ, List.zipWith_cons_cons, ih,
        List.length_cons, Nat.succ_min_succ]
      simp

/-!
Part 6: the claims about the SignalEngine.
-/

/-- C9: on the empty price series the engine returns the defined "no data"
sentinel; being a total function of the series, it never raises — the
sentinel is a defined outcome, not an error. -/
theorem C9_empty_sentinel (s l : ℕ) :
    get_strategy_performance s l [] = PerfResult.noData := rfl

/-- C5: every signal value is in \x7b-1, 0, 1\x7d: +1 exactly when the short
rolling mean exceeds the long one, -1 exactly when it is below, and 0
exactly when they are equal. -/
theorem C5_signal_values (s l : ℕ) (xs : List ℚ) (i : ℕ) :
    (signal s l xs i = 1 ∨ signal s l xs i = 0 ∨ signal s l xs i = -1) ∧
    (signal s l xs i = 1 ↔ rolling_mean s xs i > rolling_mean l xs i) ∧
    (signal s l xs i = -1 ↔ rolling_mean s xs i < rolling_mean l xs i) ∧
    (signal s l xs i = 0 ↔ rolling_mean s xs i = rolling_mean l xs i) := by
  unfold signal
  rcases lt_trichotomy (rolling_mean s xs i) (rolling_mean l xs i)
    with h | h | h
  · rw [if_neg (asymm h), if_pos h]
    exact ⟨Or.inr (Or.inr rfl),
      iff_of_false (by decide) (asymm h),
      iff_of_true rfl h,
      iff_of_false (by decide) (ne_of_lt h)⟩
  · rw [if_neg (by simp [h]), if_neg (by simp [h])]
    exact ⟨Or.inr (Or.inl rfl),
      iff_of_false (by decide) (by simp [h]),
      iff_of_false (by decide) (by simp [h]),
      iff_of_true rfl h⟩
  · rw [if_pos h]
    exact ⟨Or.inl rfl,
      iff_of_true rfl h,
      iff_of_false (by decide) (asymm h),
      iff_of_false (by decide) (ne_of_gt h)⟩

/-- C3: at every row the length of the observation window actually used by
the rolling mean is `min w (i+1)` — the window shrinks near the start
rather than being undefined — and the rolling mean equals the arithmetic
mean over the trailing window of that size; `short_ma` and `long_ma` are
the instances `w = short_window` and `w = long_window`. -/
theorem C3_rolling_mean_window (w : ℕ) (xs : List ℚ) (i : ℕ) (hw : 0 < w)
    (hi : i < xs.length) :
    (maWindow w xs i).length = min w (i + 1) ∧
    rolling_mean w xs i = spec_trailing_mean w xs i := by
  have hlen : (xs.take (i + 1)).length = i + 1 := by
    rw [List.length_take]
    omega
  have hwin : (maWindow w xs i).length = min w (i + 1) := by
    rw [maWindow, List.length_drop, hlen]
    omega
  refine ⟨hwin, ?_⟩
  have hspec : specWindow w xs i = maWindow w xs i := by
    unfold specWindow maWindow
    rw [List.take_reverse, List.reverse_reverse, hlen]
    congr 1
    omega
  unfold rolling_mean spec_trailing_mean
  rw [hspec, hwin]

/-- Witness for C3: for the five-point series at row 1 with window 3, the
window holds min(3, 2) = 2 observations and the rolling mean is their mean. -/
theorem C3_witness :
    (maWindow 3 [1, 2, 3, 4, 5] 1).length = min 3 (1 + 1) ∧
    rolling_mean 3 [1, 2, 3, 4, 5] 1 =
      spec_trailing_mean 3 [1, 2, 3, 4, 5] 1 :=
  C3_rolling_mean_window 3 [1, 2, 3, 4, 5] 1 (by decide) (by decide)

/-- C2: the engine's cumulative return is the compounded product
`(product of (1 + strat[i])) - 1` over the rows in time order, where
`strat` is the spec's lagged strategy return built from per-step simple
returns and the previous row's signal. -/
theorem C2_cumulative_return (s l : ℕ) (xs : List ℚ) (hne : xs ≠ []) :
    cumulative_return s l xs =
      (∏ i in Finset.range xs.length, (1 + strat_spec s l xs i)) - 1 := by
  unfold cumulative_return
  rw [strategy_returns_eq_map, List.map_map, range_map_prod]
  congr 1
  exact Finset.prod_congr rfl fun i _ => by
    simp [Function.comp, add_comm]

/-- Witness for C2: the identity instantiated on a concrete three-point
series with windows 2 and 3. -/
theorem C2_witness :
    cumulative_return 2 3 [100, 110, 105] =
      (∏ i in Finset.range ([100, 110, 105] : List ℚ).length,
        (1 + strat_spec 2 3 [100, 110, 105] i)) - 1 :=
  C2_cumulative_return 2 3 [100, 110, 105] (by simp)

/-- C4: the position column is the signal column's lagged difference
(0 at row 0); a row is a buy event exactly when its position delta is 2 and
a sell event exactly when it is -2; and the two-step signal path
`[-1, 0, 1]` yields deltas `[0, 1, 1]` with zero buy and zero sell events,
since neither step's delta reaches magnitude 2. -/
theorem C4_position_and_events :
    (∀ (s l : ℕ) (xs : List ℚ),
      (position s l xs).length = xs.length ∧
      (∀ i, i < xs.length →
        (position s l xs).getD i 0 =
          if i = 0 then 0
          else signal s l xs i - signal s l xs (i - 1)) ∧
      (∀ i, i ∈ buy_signals s l xs ↔
        i < xs.length ∧ (position s l xs).getD i 0 = 2) ∧
      (∀ i, i ∈ sell_signals s l xs ↔
        i < xs.length ∧ (position s l xs).getD i 0 = -2)) ∧
    diffList [-1, 0, 1] = [0, 1, 1] ∧
    buy_events [-1, 0, 1] = [] ∧
    sell_events [-1, 0, 1] = [] := by
  refine ⟨fun s l xs => ⟨?_, ?_, ?_, ?_⟩, by decide, by decide, by decide⟩
  · simp [position, diffList_length, signals_length]
  · intro i hi
    have hlen : i < (position s l xs).length := by
      simp [position, diffList_length, signals_length, hi]
    rw [List.getD_eq_getElem _ _ hlen]
    simp only [position] at hlen ⊢
    rw [diffList_getElem _ i hlen]
    cases i with
    | zero => simp
    | succ j =>
      simp only [Nat.add_sub_cancel]
      rw [signals_getD s l xs (j + 1) hi,
        signals_getD s l xs j (Nat.lt_of_succ_lt hi)]
  · intro i
    simp [buy_signals, buy_events, position, List.mem_filter,
      List.mem_range, signals_length]
  · intro i
    simp [sell_signals, sell_events, position, List.mem_filter,
      List.mem_range, signals_length]

/-- Witness for C4: the delta formula instantiated at row 1 of a concrete
two-point series. -/
theorem C4_witness :
    (position 1 2 [100, 200]).getD 1 0 =
      if (1 : ℕ) = 0 then 0
      else signal 1 2 [100, 200] 1 - signal 1 2 [100, 200] 0 :=
  (C4_position_and_events.1 1 2 [100, 200]).2.1 1 (by decide)

/-- C8: on a constant price series every signal is 0 (both rolling means
equal the constant) and the cumulative return is 0, for any positive
window sizes. -/
theorem C8_constant_series (s l n : ℕ) (c : ℚ) (hs : 0 < s) (hl : 0 < l) :
    (∀ i, i < n → signal s l (List.replicate n c) i = 0) ∧
    cumulative_return s l (List.replicate n c) = 0 := by
  have hsig : ∀ i, i < n → signal s l (List.replicate n c) i = 0 :=
    fun i hi => signal_replicate s l n c i hs hl hi
  refine ⟨hsig, ?_⟩
  have hsigs : signals s l (List.replicate n c) = List.replicate n 0 := by
    apply List.eq_replicate_iff.mpr
    constructor
    · simp [signals_length]
    · intro b hb
      simp only [signals, List.mem_map, List.mem_range,
        List.length_replicate] at hb
      obtain ⟨i, hi, rfl⟩ := hb
      exact hsig i hi
  unfold cumulative_return strategy_returns
  rw [hsigs, shiftList_replicate_zero, zipWith_mul_castZero]
  simp

/-- Witness for C8: a concrete constant series of three 7s with windows
5 and 20. -/
theorem C8_witness :
    signal 5 20 (List.replicate 3 (7 : ℚ)) 1 = 0 ∧
    cumulative_return 5 20 (List.replicate 3 (7 : ℚ)) = 0 :=
  ⟨(C8_constant_series 5 20 3 7 (by decide) (by decide)).1 1 (by decide),
   (C8_constant_series 5 20 3 7 (by decide) (by decide)).2⟩

end Invsto
